import Mathlib

/-!
Verification of the SharpNeedle Bootstrapper
(src/third_party/SharpNeedle/src/Bootstrapper/Bootstrapper.cpp).

The native code is embedded shallowly: each platform hosting call
(CLRCreateInstance, ICLRMetaHost::GetRuntime, ICLRRuntimeInfo::IsLoadable,
ICLRRuntimeInfo::GetInterface, ICLRRuntimeHost::Start,
ICLRRuntimeHost::ExecuteInDefaultAppDomain) is driven by an environment
record `Env` that supplies the HRESULT each call would return, and every
execution produces a trace of events (`Ev`) recording the platform calls
made, the COM handles acquired and released, and the managed invocation
attempted.  Wide-character strings are modelled as `List Char`.
-/

namespace Bootstrapper

/-- HRESULT `S_OK` (success). -/
def S_OK : Int := 0

/-- HRESULT `S_FALSE` (success code returned e.g. by `Start` when the CLR
is already running). -/
def S_FALSE : Int := 1

/-- HRESULT `E_FAIL` (a generic failure code, negative as a signed 32-bit
value). -/
def E_FAIL : Int := -2147467259

/-- The three COM interface pointers managed by `StartCLR`:
`pClrMetaHost`, `pClrRuntimeInfo` and `pClrRuntimeHost`. -/
inductive Handle where
  | metaHost
  | runtimeInfo
  | runtimeHost
deriving DecidableEq, Repr

/-- Observable events of a run: each platform hosting call with the
HRESULT it returned, each COM handle acquisition (an out-parameter being
filled on success) and each `Release`, and the managed invocation with the
four strings passed to `ExecuteInDefaultAppDomain`. -/
inductive Ev where
  | createInstanceCall (hr : Int)
  | getRuntimeCall (version : List Char) (hr : Int)
  | isLoadableCall (hr : Int) (loadable : Bool)
  | getInterfaceCall (hr : Int)
  | startCall (hr : Int)
  | acquire (h : Handle)
  | release (h : Handle)
  | executeCall (assemblyPath typeName methodName payload : List Char)
deriving DecidableEq, Repr

/-- The platform environment: the HRESULT each hosting call returns and the
out-values it produces (`fLoadable` for `IsLoadable`, the `DWORD` result
for `ExecuteInDefaultAppDomain`). -/
structure Env where
  createInstanceHr : Int
  getRuntimeHr : Int
  isLoadableHr : Int
  isLoadableVal : Bool
  getInterfaceHr : Int
  startHr : Int
  executeHr : Int
  executeResult : Nat
deriving DecidableEq, Repr

/-- `StartCLR(LPCWSTR dotNetVersion)`, translated from Bootstrapper.cpp.
Four sequential acquisition steps, each guarded by `hr == S_OK`
(`IsLoadable` additionally by its `fLoadable` out-value); on success the
function returns `pClrRuntimeHost` immediately after calling `Start`; on
failure control falls to the cleanup block, which releases exactly the
non-null pointers in the order `pClrRuntimeHost`, `pClrRuntimeInfo`,
`pClrMetaHost` and returns NULL. -/
def StartCLR (env : Env) (dotNetVersion : List Char) : Option Handle × List Ev :=
  if env.createInstanceHr = S_OK then
    if env.getRuntimeHr = S_OK then
      if env.isLoadableHr = S_OK ∧ env.isLoadableVal = true then
        if env.getInterfaceHr = S_OK then
          (some Handle.runtimeHost,
            [Ev.createInstanceCall env.createInstanceHr,
             Ev.acquire Handle.metaHost,
             Ev.getRuntimeCall dotNetVersion env.getRuntimeHr,
             Ev.acquire Handle.runtimeInfo,
             Ev.isLoadableCall env.isLoadableHr env.isLoadableVal,
             Ev.getInterfaceCall env.getInterfaceHr,
             Ev.acquire Handle.runtimeHost,
             Ev.startCall env.startHr])
        else
          (none,
            [Ev.createInstanceCall env.createInstanceHr,
             Ev.acquire Handle.metaHost,
             Ev.getRuntimeCall dotNetVersion env.getRuntimeHr,
             Ev.acquire Handle.runtimeInfo,
             Ev.isLoadableCall env.isLoadableHr env.isLoadableVal,
             Ev.getInterfaceCall env.getInterfaceHr,
             Ev.release Handle.runtimeInfo,
             Ev.release Handle.metaHost])
      else
        (none,
          [Ev.createInstanceCall env.createInstanceHr,
           Ev.acquire Handle.metaHost,
           Ev.getRuntimeCall dotNetVersion env.getRuntimeHr,
           Ev.acquire Handle.runtimeInfo,
           Ev.isLoadableCall env.isLoadableHr env.isLoadableVal,
           Ev.release Handle.runtimeInfo,
           Ev.release Handle.metaHost])
    else
      (none,
        [Ev.createInstanceCall env.createInstanceHr,
         Ev.acquire Handle.metaHost,
         Ev.getRuntimeCall dotNetVersion env.getRuntimeHr,
         Ev.release Handle.metaHost])
  else
    (none, [Ev.createInstanceCall env.createInstanceHr])

/-- Auxiliary worker for `split`: walks the input, flushing the
accumulated field each time the delimiter is met. -/
def splitAux (d : Char) : List Char → List Char → List (List Char)
  | [], acc => [acc.reverse]
  | c :: cs, acc =>
      if c = d then acc.reverse :: splitAux d cs []
      else splitAux d cs (c :: acc)

/-- Modelled from the spec: the helper `split` called by
`AdapterEntryPoint` is declared in `Bootstrapper.h`, which is not among
the provided source files.  Per the spec (§4.1) it produces "an ordered
sequence of substrings split on every occurrence of the delimiter,
preserving order and including empty substrings where delimiters are
adjacent or at string boundaries", with no trimming or escaping. -/
def split (s : List Char) (d : Char) : List (List Char) :=
  splitAux d s []

/-- The version literal `L"v4.0.30319"` passed by `AdapterEntryPoint` to
`StartCLR`. -/
def dotNetVersionArg : List Char := "v4.0.30319".data

/-- `AdapterEntryPoint(const wchar_t* adapterDllArg)`, translated from
Bootstrapper.cpp.  Splits the argument on `*`; returns (with an empty
trace) when fewer than four parts result; otherwise acquires the CLR via
`StartCLR(L"v4.0.30319")` and, only when a non-null host came back, calls
`ExecuteInDefaultAppDomain` with the first four parts, capturing the
HRESULT and the `DWORD` result into locals that are then dropped.  The
function returns no value. -/
def AdapterEntryPoint (env : Env) (adapterDllArg : List Char) : Unit × List Ev :=
  let parts := split adapterDllArg '*'
  if parts.length < 4 then ((), [])
  else
    let managedDllLocation := parts.getD 0 []
    let managedDllClass := parts.getD 1 []
    let managedDllFunction := parts.getD 2 []
    let scubaDiverArg := parts.getD 3 []
    match StartCLR env dotNetVersionArg with
    | (some _pClr, evs) =>
        let _result : Nat := env.executeResult
        let _hr : Int := env.executeHr
        ((), evs ++ [Ev.executeCall managedDllLocation managedDllClass
                        managedDllFunction scubaDiverArg])
    | (none, evs) => ((), evs)

/-- The handles acquired during a trace, in order of acquisition. -/
def acquires (t : List Ev) : List Handle :=
  t.filterMap fun e =>
    match e with
    | Ev.acquire h => some h
    | _ => none

/-- The handles released during a trace, in order of release. -/
def releases (t : List Ev) : List Handle :=
  t.filterMap fun e =>
    match e with
    | Ev.release h => some h
    | _ => none

/-- Whether an event is a managed-method invocation
(`ExecuteInDefaultAppDomain`). -/
def isExecuteCall : Ev → Bool
  | Ev.executeCall _ _ _ _ => true
  | _ => false

/-- Whether an event is a call to `ICLRRuntimeHost::Start`. -/
def isStartCall : Ev → Bool
  | Ev.startCall _ => true
  | _ => false

/-- Joins fields with a single delimiter character: the inverse view of
`split` used to state that `split` cuts on every occurrence of the
delimiter while preserving order. -/
def joinWith (d : Char) : List (List Char) → List Char
  | [] => []
  | [f] => f
  | f :: fs => f ++ d :: joinWith d fs

/-- Process-level CLR state: whether the CLR is already running in the
host process. -/
structure ProcState where
  clrStarted : Bool
deriving DecidableEq, Repr

/-- Modelled from the spec: `ICLRRuntimeHost::Start` is a platform API
whose implementation is outside this repository.  Per the spec
("Starting an already-running runtime must be a safe no-op") and the
source comment ("This is okay to call even if the CLR is already
running"), starting a stopped CLR starts it and returns `S_OK`; starting
an already-running CLR leaves the state unchanged and returns the
success code `S_FALSE`. -/
def clrStart (s : ProcState) : ProcState × Int :=
  if s.clrStarted then (s, S_FALSE) else ({ clrStarted := true }, S_OK)

/-- An environment in which every hosting call succeeds. -/
def envAllOk : Env :=
  { createInstanceHr := S_OK
    getRuntimeHr := S_OK
    isLoadableHr := S_OK
    isLoadableVal := true
    getInterfaceHr := S_OK
    startHr := S_OK
    executeHr := S_OK
    executeResult := 0 }

/-- An environment in which `IsLoadable` succeeds but reports the runtime
as not loadable. -/
def envLoadFail : Env :=
  { envAllOk with isLoadableVal := false }

/-- An environment in which acquisition succeeds but
`ICLRRuntimeHost::Start` fails. -/
def envStartFail : Env :=
  { envAllOk with startHr := E_FAIL }

/-- Case analysis on the four guards of `StartCLR`: in every branch the
result and the trace are the literal values of that branch. -/
lemma startCLR_releases_char (env : Env) (v : List Char) :
    (StartCLR env v).1 = none ∧
      releases (StartCLR env v).2 = (acquires (StartCLR env v).2).reverse ∨
    (StartCLR env v).1 = some Handle.runtimeHost ∧
      releases (StartCLR env v).2 = [] ∧
      acquires (StartCLR env v).2 =
        [Handle.metaHost, Handle.runtimeInfo, Handle.runtimeHost] := by
  unfold StartCLR
  split_ifs <;> simp [releases, acquires, List.filterMap]

/-- **C2**: `StartCLR` returns a null result exactly when one of the four
acquisition steps fails (`CLRCreateInstance`, `GetRuntime`, `IsLoadable`
failing or reporting the runtime not loadable, or `GetInterface`), and
returns the non-null runtime-host handle otherwise. -/
theorem startCLR_null_iff_failure (env : Env) (v : List Char) :
    ((StartCLR env v).1 = none ↔
      env.createInstanceHr ≠ S_OK ∨ env.getRuntimeHr ≠ S_OK ∨
      ¬(env.isLoadableHr = S_OK ∧ env.isLoadableVal = true) ∨
      env.getInterfaceHr ≠ S_OK) ∧
    ((StartCLR env v).1 ≠ none → (StartCLR env v).1 = some Handle.runtimeHost) := by
  unfold StartCLR
  split_ifs <;> simp_all

/-- **C3**: on every failing execution of `StartCLR` the handles released
are exactly the handles acquired, in reverse order of acquisition, so each
acquired handle is released exactly once before the function returns
null. -/
theorem startCLR_failure_releases_reverse (env : Env) (v : List Char)
    (hfail : (StartCLR env v).1 = none) :
    releases (StartCLR env v).2 = (acquires (StartCLR env v).2).reverse := by
  unfold StartCLR at hfail ⊢
  split_ifs at hfail ⊢ <;>
    simp_all [releases, acquires, List.filterMap]

/-- Witness for `startCLR_failure_releases_reverse`: the environment where
`IsLoadable` reports the runtime not loadable. -/
theorem startCLR_failure_releases_reverse_witness :
    (StartCLR envLoadFail dotNetVersionArg).1 = none ∧
    releases (StartCLR envLoadFail dotNetVersionArg).2 =
      (acquires (StartCLR envLoadFail dotNetVersionArg).2).reverse :=
  ⟨by decide, startCLR_failure_releases_reverse envLoadFail dotNetVersionArg (by decide)⟩

/-- **C4 counterexample**: on the successful path `StartCLR` returns the
runtime-host handle while releasing nothing, although the metahost and
runtime-info handles were acquired; so it is false that every exit path
releases the acquired intermediate handles. -/
theorem startCLR_success_leaks_metahost :
    (StartCLR envAllOk dotNetVersionArg).1 = some Handle.runtimeHost ∧
    Handle.metaHost ∈ acquires (StartCLR envAllOk dotNetVersionArg).2 ∧
    Handle.runtimeInfo ∈ acquires (StartCLR envAllOk dotNetVersionArg).2 ∧
    releases (StartCLR envAllOk dotNetVersionArg).2 = [] := by
  decide

/-- **C4 (amended)**: on every failing exit path of `StartCLR` each
acquired intermediate handle is released before returning (in reverse
order of acquisition); on the successful exit path no handle is released
before returning, so the metahost and runtime-info handles are not
released there. -/
theorem startCLR_release_paths (env : Env) (v : List Char) :
    ((StartCLR env v).1 = none →
      releases (StartCLR env v).2 = (acquires (StartCLR env v).2).reverse) ∧
    ((StartCLR env v).1 ≠ none → releases (StartCLR env v).2 = []) := by
  rcases startCLR_releases_char env v with ⟨h1, h2⟩ | ⟨h1, h2, h3⟩
  · exact ⟨fun _ => h2, fun hne => absurd h1 hne⟩
  · refine ⟨fun heq => ?_, fun _ => h2⟩
    rw [h1] at heq
    exact absurd heq (by simp)

/-- Witness for `startCLR_release_paths`: in the all-success environment
the result is non-null and nothing is released. -/
theorem startCLR_release_paths_witness :
    (StartCLR envAllOk dotNetVersionArg).1 ≠ none ∧
    releases (StartCLR envAllOk dotNetVersionArg).2 = [] :=
  ⟨by decide, (startCLR_release_paths envAllOk dotNetVersionArg).2 (by decide)⟩

/-- The trace of `StartCLR` never contains a managed-method invocation:
`ExecuteInDefaultAppDomain` is called only by `AdapterEntryPoint`. -/
lemma startCLR_no_execute (env : Env) (v : List Char) :
    (StartCLR env v).2.any isExecuteCall = false := by
  unfold StartCLR
  split_ifs <;> simp [isExecuteCall]

/-- **C1**: the managed-method invocation is attempted only when the split
input has at least four fields and `StartCLR` returned a non-null host:
with fewer than four fields the entry point returns with an empty trace
(runtime acquisition is never attempted), and any `ExecuteInDefaultAppDomain`
event in the trace implies both at least four fields and a non-null
handle from `StartCLR`. -/
theorem adapter_invoker_guard (env : Env) (arg : List Char) :
    ((split arg '*').length < 4 → (AdapterEntryPoint env arg).2 = []) ∧
    ((AdapterEntryPoint env arg).2.any isExecuteCall = true →
      4 ≤ (split arg '*').length ∧
      (StartCLR env dotNetVersionArg).1 = some Handle.runtimeHost) := by
  by_cases hlen : (split arg '*').length < 4
  · simp [AdapterEntryPoint, hlen]
  · have h4 : 4 ≤ (split arg '*').length := Nat.le_of_not_lt hlen
    rcases hres : StartCLR env dotNetVersionArg with ⟨r, evs⟩
    cases r with
    | none =>
        have hne : evs.any isExecuteCall = false := by
          simpa [hres] using startCLR_no_execute env dotNetVersionArg
        simp [AdapterEntryPoint, hres, hlen, hne]
    | some hh =>
        have hchar := startCLR_releases_char env dotNetVersionArg
        rw [hres] at hchar
        have hr : hh = Handle.runtimeHost := by
          rcases hchar with ⟨h1, _⟩ | ⟨h1, _⟩
          · exact absurd h1 (by simp)
          · simpa using h1
        subst hr
        simp [AdapterEntryPoint, hres, hlen, h4]

/-- Witness for `adapter_invoker_guard`: a two-field input yields an empty
trace, and with four fields and a successful environment the invocation
event present in the trace certifies a non-null handle. -/
theorem adapter_invoker_guard_witness :
    ((split "a*b".data '*').length < 4 ∧
      (AdapterEntryPoint envAllOk "a*b".data).2 = []) ∧
    ((AdapterEntryPoint envAllOk "a*b*c*d".data).2.any isExecuteCall = true ∧
      4 ≤ (split "a*b*c*d".data '*').length ∧
      (StartCLR envAllOk dotNetVersionArg).1 = some Handle.runtimeHost) :=
  ⟨⟨by decide, (adapter_invoker_guard envAllOk "a*b".data).1 (by decide)⟩,
   ⟨by decide, (adapter_invoker_guard envAllOk "a*b*c*d".data).2 (by decide)⟩⟩

/-- `splitAux` always yields at least one field. -/
lemma splitAux_ne_nil (d : Char) (s acc : List Char) :
    splitAux d s acc ≠ [] := by
  induction s generalizing acc with
  | nil => simp [splitAux]
  | cons c cs ih =>
      rw [splitAux]
      by_cases h : c = d
      · simp [h]
      · simpa [h] using ih (c :: acc)

/-- `joinWith` on a cons with a nonempty tail inserts one delimiter. -/
lemma joinWith_cons (d : Char) (f : List Char) (l : List (List Char))
    (h : l ≠ []) : joinWith d (f :: l) = f ++ d :: joinWith d l := by
  cases l with
  | nil => exact absurd rfl h
  | cons g gs => rfl

/-- Joining the fields of `splitAux` with the delimiter restores the
pending accumulator followed by the remaining input. -/
lemma joinWith_splitAux (d : Char) (s acc : List Char) :
    joinWith d (splitAux d s acc) = acc.reverse ++ s := by
  induction s generalizing acc with
  | nil => simp [splitAux, joinWith]
  | cons c cs ih =>
      rw [splitAux]
      by_cases h : c = d
      · rw [if_pos h,
          joinWith_cons d acc.reverse _ (splitAux_ne_nil d cs []), ih []]
        simp [h]
      · rw [if_neg h, ih (c :: acc)]
        simp

/-- No field produced by `splitAux` contains the delimiter, provided the
accumulator does not. -/
lemma splitAux_not_mem_delim (d : Char) (s acc : List Char)
    (hacc : d ∉ acc) : ∀ f ∈ splitAux d s acc, d ∉ f := by
  induction s generalizing acc with
  | nil =>
      intro f hf
      simp only [splitAux, List.mem_singleton] at hf
      subst hf
      simpa using hacc
  | cons c cs ih =>
      intro f hf
      rw [splitAux] at hf
      by_cases h : c = d
      · rw [if_pos h] at hf
        rcases List.mem_cons.mp hf with hf | hf
        · subst hf; simpa using hacc
        · exact ih [] (by simp) f hf
      · rw [if_neg h] at hf
        refine ih (c :: acc) ?_ f hf
        simp only [List.mem_cons, not_or]
        exact ⟨fun hdc => h hdc.symm, hacc⟩

/-- **C5**: `split` cuts the input on every occurrence of the delimiter,
preserving field order and keeping empty fields at adjacent delimiters and
string boundaries — joining its fields with the delimiter restores the
input and no field contains the delimiter — and on the two documented
inputs it yields exactly the documented field sequences. -/
theorem split_correct :
    (∀ (s : List Char) (d : Char), joinWith d (split s d) = s) ∧
    (∀ (s : List Char) (d : Char), ∀ f ∈ split s d, d ∉ f) ∧
    split "C:\\payload.dll*MyNamespace.MyType*Run*hello-world".data '*' =
      ["C:\\payload.dll".data, "MyNamespace.MyType".data, "Run".data,
       "hello-world".data] ∧
    split "a**c*d".data '*' = ["a".data, "".data, "c".data, "d".data] := by
  refine ⟨fun s d => ?_, fun s d => ?_, by decide, by decide⟩
  · simpa using joinWith_splitAux d s []
  · exact splitAux_not_mem_delim d s [] (by simp)

/-- Lists agreeing on their first four elements agree on `getD i []` for
`i < 4`. -/
lemma getElem?_eq_of_take_eq {l m : List (List Char)}
    (h : l.take 4 = m.take 4) (i : Nat) (hi : i < 4) :
    l[i]? = m[i]? := by
  rw [← List.getElem?_take_of_lt (l := l) hi,
    ← List.getElem?_take_of_lt (l := m) hi, h]

/-- **C6**: the entry point's behaviour depends only on the first four
fields of the split input: any two inputs that both have at least four
fields and agree on the first four produce identical executions, so
fields beyond the fourth have no effect on the call made. -/
theorem adapter_extra_fields_ignored (env : Env) (a b : List Char)
    (ha : 4 ≤ (split a '*').length) (hb : 4 ≤ (split b '*').length)
    (h : (split a '*').take 4 = (split b '*').take 4) :
    AdapterEntryPoint env a = AdapterEntryPoint env b := by
  have f0 := getElem?_eq_of_take_eq h 0 (by norm_num)
  have f1 := getElem?_eq_of_take_eq h 1 (by norm_num)
  have f2 := getElem?_eq_of_take_eq h 2 (by norm_num)
  have f3 := getElem?_eq_of_take_eq h 3 (by norm_num)
  rcases hres : StartCLR env dotNetVersionArg with ⟨r, evs⟩
  cases r <;>
    simp [AdapterEntryPoint, hres, Nat.not_lt.mpr ha, Nat.not_lt.mpr hb,
      f0, f1, f2, f3]

/-- Witness for `adapter_extra_fields_ignored`: a five-field input behaves
exactly as its four-field truncation. -/
theorem adapter_extra_fields_ignored_witness :
    AdapterEntryPoint envAllOk "a*b*c*d*e".data =
      AdapterEntryPoint envAllOk "a*b*c*d".data :=
  adapter_extra_fields_ignored envAllOk "a*b*c*d*e".data "a*b*c*d".data
    (by decide) (by decide) (by decide)

/-- **C7**: starting an already-running runtime is a safe no-op — calling
`clrStart` on a started state leaves the state unchanged and returns the
success code `S_FALSE` (every `clrStart` returns a non-negative, i.e.
successful, HRESULT) — and `StartCLR` behaves identically whatever
HRESULT the `Start` call reports: same returned handle and the same trace
apart from the recorded `Start` HRESULT itself. -/
theorem clr_start_idempotent :
    (∀ s : ProcState,
        clrStart (clrStart s).1 = ((clrStart s).1, S_FALSE) ∧
        0 ≤ (clrStart s).2) ∧
    (∀ (env : Env) (v : List Char) (hr hr2 : Int),
        (StartCLR { env with startHr := hr } v).1 =
          (StartCLR { env with startHr := hr2 } v).1 ∧
        (StartCLR { env with startHr := hr } v).2.filter
            (fun e => !isStartCall e) =
          (StartCLR { env with startHr := hr2 } v).2.filter
            (fun e => !isStartCall e)) := by
  constructor
  · intro s
    by_cases h : s.clrStarted <;> simp [clrStart, h, S_OK, S_FALSE]
  · intro env v hr hr2
    simp only [StartCLR]
    split_ifs <;> simp [isStartCall]

/-- **C8**: the entry point surfaces nothing to its caller: its returned
value is the unit value for every input, and the HRESULT and `DWORD`
result produced by the managed invocation have no effect on anything the
function returns — environments differing only in those two outputs give
identical executions. -/
theorem adapter_result_not_propagated (env : Env) (arg : List Char)
    (hrE : Int) (res : Nat) :
    AdapterEntryPoint { env with executeHr := hrE, executeResult := res } arg =
      AdapterEntryPoint env arg ∧
    (AdapterEntryPoint env arg).1 = () :=
  ⟨rfl, rfl⟩

/-- Any `GetRuntime` call recorded by `StartCLR` requests exactly the
version string `StartCLR` was given. -/
lemma startCLR_getRuntime_version (env : Env) (v vs : List Char) (hr : Int)
    (h : Ev.getRuntimeCall vs hr ∈ (StartCLR env v).2) : vs = v := by
  unfold StartCLR at h
  split_ifs at h <;> simp_all

/-- **C9**: every runtime-version lookup performed by the entry point
requests the fixed constant `v4.0.30319`; the input string's fields never
influence the requested version. -/
theorem adapter_fixed_runtime_version (env : Env) (arg vs : List Char)
    (hr : Int)
    (h : Ev.getRuntimeCall vs hr ∈ (AdapterEntryPoint env arg).2) :
    vs = "v4.0.30319".data := by
  have hmem : Ev.getRuntimeCall vs hr ∈ (StartCLR env dotNetVersionArg).2 := by
    by_cases hlen : (split arg '*').length < 4
    · simp [AdapterEntryPoint, hlen] at h
    · rcases hres : StartCLR env dotNetVersionArg with ⟨r, evs⟩
      cases r <;> simp_all [AdapterEntryPoint, hres, hlen]
  exact startCLR_getRuntime_version env dotNetVersionArg vs hr hmem

/-- Witness for `adapter_fixed_runtime_version`: in the all-success run on
a four-field input, the recorded `GetRuntime` call indeed carries
`v4.0.30319`. -/
theorem adapter_fixed_runtime_version_witness :
    Ev.getRuntimeCall "v4.0.30319".data S_OK ∈
      (AdapterEntryPoint envAllOk "a*b*c*d".data).2 ∧
    ("v4.0.30319".data : List Char) = "v4.0.30319".data :=
  ⟨by decide,
   adapter_fixed_runtime_version envAllOk "a*b*c*d".data "v4.0.30319".data
     S_OK (by decide)⟩

/-- **C10**: when all four acquisition steps succeed but the `Start` call
fails, `StartCLR` still returns the non-null runtime-host handle — the
`Start` HRESULT is never inspected — and on a well-formed input the entry
point then proceeds to invoke the managed method on that handle. -/
theorem start_failure_host_still_returned (env : Env) (arg : List Char)
    (h1 : env.createInstanceHr = S_OK) (h2 : env.getRuntimeHr = S_OK)
    (h3 : env.isLoadableHr = S_OK) (h4 : env.isLoadableVal = true)
    (h5 : env.getInterfaceHr = S_OK) (_h6 : env.startHr ≠ S_OK)
    (h7 : 4 ≤ (split arg '*').length) :
    (StartCLR env dotNetVersionArg).1 = some Handle.runtimeHost ∧
    (AdapterEntryPoint env arg).2.any isExecuteCall = true := by
  have hs : StartCLR env dotNetVersionArg =
      (some Handle.runtimeHost, (StartCLR env dotNetVersionArg).2) := by
    unfold StartCLR
    simp [h1, h2, h3, h4, h5]
  refine ⟨by rw [hs], ?_⟩
  rcases hres : StartCLR env dotNetVersionArg with ⟨r, evs⟩
  have hr : r = some Handle.runtimeHost := by
    rw [hres] at hs
    exact congrArg Prod.fst hs
  subst hr
  simp [AdapterEntryPoint, hres, Nat.not_lt.mpr h7, isExecuteCall]

/-- Witness for `start_failure_host_still_returned`: the environment where
only `Start` fails (`E_FAIL`), on the four-field input. -/
theorem start_failure_host_still_returned_witness :
    (StartCLR envStartFail dotNetVersionArg).1 = some Handle.runtimeHost ∧
    (AdapterEntryPoint envStartFail "a*b*c*d".data).2.any isExecuteCall = true :=
  start_failure_host_still_returned envStartFail "a*b*c*d".data (by decide)
    (by decide) (by decide) (by decide) (by decide) (by decide) (by decide)

end Bootstrapper
